import Mathlib

/-!
Verification of the LAVA job submitter core
(`.gitlab-ci/lava/lava_job_submitter.py` and its helpers in
`.gitlab-ci/lava/utils/`): a shallow embedding of the job lifecycle state
machine, the retry orchestrator, the RPC call wrapper, the log section
tracker and the known-issue heuristics, together with theorems about the
properties the specification states for them.

Conventions: Python `datetime` values are modelled as integer second
counts, `timedelta` values as integer second durations; a raised Python
exception is modelled by the `Except`/error side of a return value; a
mutated object is modelled by explicit state passing.
-/

/-- One LAVA job handle, mirroring the mutable fields of class `LAVAJob`
(`lava_job_submitter.py`): remote id, log read offset, last heartbeat
time, finished flag and status string.  The `proxy` and `definition`
fields are opaque to every claim and are left out of the state. -/
structure LAVAJob where
  job_id : Option Nat
  last_log_line : Nat
  last_log_time : Option Int
  is_finished : Bool
  status : String
deriving DecidableEq, Repr

/-- The state `LAVAJob.__init__` produces for a fresh job. -/
def freshLAVAJob : LAVAJob :=
  { job_id := none
    last_log_line := 0
    last_log_time := none
    is_finished := false
    status := "created" }

/-- Character list of a string literal, used to spell out the fixed parts
of the regular expressions that the submitter searches for. -/
def litList (s : String) : List Char := s.data

/-- One alternation step of the sentinel regex `hwci: mesa: (pass|fail)`
at a fixed position of the line: if the text at this position starts with
the sentinel prefix followed by `pass` or by `fail`, return the captured
group. -/
def matchSentinelAt (cs : List Char) : Option String :=
  if (litList "hwci: mesa: pass").isPrefixOf cs then some "pass"
  else if (litList "hwci: mesa: fail").isPrefixOf cs then some "fail"
  else none

/-- The search of `re.search(r"hwci: mesa: (pass|fail)", line)`: try the
pattern at every position, leftmost match first, and return the captured
group. -/
def findSentinel : List Char → Option String
  | [] => none
  | c :: cs =>
    match matchSentinelAt (c :: cs) with
    | some v => some v
    | none => findSentinel cs

/-- Verdict captured by the sentinel regex on one log line, if any. -/
def lineVerdict (line : String) : Option String :=
  findSentinel line.data

/-- The scan inside `LAVAJob.parse_job_result_from_log`: enumerate the
lines; at the first line the sentinel regex matches, report
`idx + 1` (the `last_line` cut point) and the captured verdict. -/
def scanForSentinel : List String → Option (Nat × String)
  | [] => none
  | l :: ls =>
    match lineVerdict l with
    | some v => some (1, v)
    | none =>
      match scanForSentinel ls with
      | some (n, v) => some (n + 1, v)
      | none => none

/-- `LAVAJob.parse_job_result_from_log`: scan the batch for the sentinel
`hwci: mesa: (pass|fail)`; on the first match set `is_finished`, set
`status` to the captured group and truncate the batch right after the
matching line; with no match return the batch unchanged
(`lines[:None] == lines[:]`). -/
def parse_job_result_from_log (job : LAVAJob) (lines : List String) :
    LAVAJob × List String :=
  match scanForSentinel lines with
  | some (lastLine, v) =>
    ({ job with is_finished := true, status := v }, lines.take lastLine)
  | none => (job, lines)

example : lineVerdict "2023 hwci: mesa: pass rest" = some "pass" := by decide

example : lineVerdict "hwci: mesa: crash" = none := by decide

example :
    parse_job_result_from_log freshLAVAJob
      ["boot", "hwci: mesa: fail", "noise"] =
      ({ freshLAVAJob with is_finished := true, status := "fail" },
        ["boot", "hwci: mesa: fail"]) := by decide

lemma scanForSentinel_clean_prefix (pre : List String) (l : String)
    (post : List String) (v : String)
    (hpre : ∀ p ∈ pre, lineVerdict p = none)
    (hl : lineVerdict l = some v) :
    scanForSentinel (pre ++ l :: post) = some (pre.length + 1, v) := by
  induction pre with
  | nil => simp [scanForSentinel, hl]
  | cons p ps ih =>
    have hp : lineVerdict p = none := hpre p (by simp)
    have ihs : scanForSentinel (ps ++ l :: post) = some (ps.length + 1, v) :=
      ih (fun q hq => hpre q (by simp [hq]))
    simp [List.cons_append, scanForSentinel, hp, ihs, List.length_cons]

lemma scanForSentinel_none (lines : List String)
    (h : ∀ l ∈ lines, lineVerdict l = none) :
    scanForSentinel lines = none := by
  induction lines with
  | nil => rfl
  | cons l ls ih =>
    have hl : lineVerdict l = none := h l (by simp)
    have ihs : scanForSentinel ls = none :=
      ih (fun q hq => h q (by simp [hq]))
    simp [scanForSentinel, hl, ihs]

/-- C1: a batch that contains a sentinel line is cut right after the
first such line; the job takes the captured verdict as status and is
marked finished. -/
theorem parse_job_result_sentinel (job : LAVAJob) (pre : List String)
    (l : String) (post : List String) (v : String)
    (hpre : ∀ p ∈ pre, lineVerdict p = none)
    (hl : lineVerdict l = some v) :
    parse_job_result_from_log job (pre ++ l :: post) =
      ({ job with is_finished := true, status := v }, pre ++ [l]) := by
  have hscan := scanForSentinel_clean_prefix pre l post v hpre hl
  simp only [parse_job_result_from_log, hscan]
  have htake : (pre ++ l :: post).take (pre.length + 1) = pre ++ [l] := by
    rw [List.take_append_eq_append_take]
    simp
  rw [htake]

/-- Witness for C1 at a concrete batch: two clean lines, the sentinel
line, then trailing noise that is cut away. -/
theorem parse_job_result_sentinel_witness :
    parse_job_result_from_log freshLAVAJob
        (["a", "b"] ++ "hwci: mesa: pass" :: ["junk1", "junk2"]) =
      ({ freshLAVAJob with is_finished := true, status := "pass" },
        ["a", "b"] ++ ["hwci: mesa: pass"]) :=
  parse_job_result_sentinel freshLAVAJob ["a", "b"] "hwci: mesa: pass"
    ["junk1", "junk2"] "pass" (by decide) (by decide)

/-- C10: a batch with no sentinel line is returned whole and the job
state is left untouched. -/
theorem parse_job_result_no_sentinel (job : LAVAJob) (lines : List String)
    (h : ∀ l ∈ lines, lineVerdict l = none) :
    parse_job_result_from_log job lines = (job, lines) := by
  have hscan := scanForSentinel_none lines h
  simp [parse_job_result_from_log, hscan]

/-- Witness for C10 at a concrete sentinel-free batch. -/
theorem parse_job_result_no_sentinel_witness :
    parse_job_result_from_log freshLAVAJob ["boot ok", "running tests"] =
      (freshLAVAJob, ["boot ok", "running tests"]) :=
  parse_job_result_no_sentinel freshLAVAJob ["boot ok", "running tests"]
    (by decide)

/-- Exception classes of `lava/exceptions.py` that an attempt of
`follow_job_execution` can raise, as far as the orchestrator's handlers
distinguish them.  `MesaCIKnownIssueException` is imported by the
submitter and by `lava_log_hints.py` but its class declaration is absent
from `lava/exceptions.py`; modelled from the spec as the known-issue
error class, a subclass of the Mesa CI exception caught by its own,
earlier `except` clause. -/
inductive MesaCIExc where
  | timeout (duration : Int)
  | parse
  | knownIssue
  | generic
deriving DecidableEq, Repr

/-- Outcome of one call of `follow_job_execution` on a fresh job: normal
return, a raised Mesa CI exception, or a `KeyboardInterrupt`. -/
inductive FollowOutcome where
  | ok
  | exc (e : MesaCIExc)
  | interrupt
deriving DecidableEq, Repr

/-- `print_job_final_status`: force a still-`running` status to `hung`,
then print the final status line (the ANSI colour wrapping and the
`show_job_data` dump are display-only and are not modelled).  Returns the
job after the mutation and the status that the summary line reports. -/
def print_job_final_status (job : LAVAJob) : LAVAJob × String :=
  let j := if job.status = "running" then { job with status := "hung" } else job
  (j, j.status)

/-- What one attempt of the `retriable_follow_job` loop records: the
1-based attempt number, whether the handler called `job.cancel()`, and
the status printed by the `finally` block's final status summary. -/
structure AttemptRecord where
  attempt_no : Nat
  cancelCalled : Bool
  printedStatus : String
deriving DecidableEq, Repr

/-- Behaviour of `follow_job_execution` for a given attempt number and
fresh job: the job state at return or raise time, and the outcome. -/
def FollowBehaviour : Type :=
  Nat → LAVAJob → LAVAJob × FollowOutcome

/-- The body of one iteration of the `retriable_follow_job` loop: build a
fresh `LAVAJob`, run `follow_job_execution` on it, dispatch the raised
exception (`MesaCIKnownIssueException` first: log it and set the status
to `canceled`; any other `MesaCIException`: log it and cancel the remote
job; `KeyboardInterrupt`: cancel and re-raise), then run the `finally`
block, which prints the attempt banner and `print_job_final_status`.
Returns the job after the `finally` block, the outcome, and the
attempt's record. -/
def attemptStep (behave : FollowBehaviour) (attemptNo : Nat) :
    LAVAJob × FollowOutcome × AttemptRecord :=
  let r := behave attemptNo freshLAVAJob
  let job1 := r.1
  let res := r.2
  let job2 :=
    match res with
    | .exc .knownIssue => { job1 with status := "canceled" }
    | _ => job1
  let cancelCalled :=
    match res with
    | .exc .knownIssue => false
    | .exc _ => true
    | .interrupt => true
    | .ok => false
  let p := print_job_final_status job2
  (p.1, res, ⟨attemptNo, cancelCalled, p.2⟩)

/-- Terminal outcome of `retriable_follow_job`: a returned job, a raised
`MesaCIRetryError` carrying its `retry_count` field, or a re-raised
`KeyboardInterrupt`. -/
inductive OrchResult where
  | returned (job : LAVAJob)
  | retryExhausted (retry_count : Nat)
  | interrupted
deriving DecidableEq, Repr

/-- Trace of one run of `retriable_follow_job`: the per-attempt records
in order, how many fresh `LAVAJob` values were constructed, and the
terminal outcome. -/
structure OrchTrace where
  records : List AttemptRecord
  jobsConstructed : Nat
  outcome : OrchResult
deriving DecidableEq, Repr

/-- The `for attempt_no in range(1, retry_count + 2)` loop of
`retriable_follow_job`, unrolled over the number of remaining iterations:
a normal return of `follow_job_execution` returns the job (after its
`finally` block ran), a `KeyboardInterrupt` propagates, a Mesa CI
exception moves on to the next attempt, and an exhausted range raises
`MesaCIRetryError(retry_count=retry_count)`. -/
def runAttempts (behave : FollowBehaviour) (retryCount : Nat) :
    Nat → Nat → OrchTrace
  | _, 0 => ⟨[], 0, .retryExhausted retryCount⟩
  | attemptNo, k + 1 =>
    let s := attemptStep behave attemptNo
    match s.2.1 with
    | .ok => ⟨[s.2.2], 1, .returned s.1⟩
    | .interrupt => ⟨[s.2.2], 1, .interrupted⟩
    | .exc _ =>
      let rest := runAttempts behave retryCount (attemptNo + 1) k
      ⟨s.2.2 :: rest.records, rest.jobsConstructed + 1, rest.outcome⟩

/-- `retriable_follow_job`: run the attempt loop with
`retry_count = NUMBER_OF_RETRIES_TIMEOUT_DETECTION` iterations plus one,
starting at attempt number 1. -/
def retriable_follow_job (behave : FollowBehaviour) (retryCount : Nat) :
    OrchTrace :=
  runAttempts behave retryCount 1 (retryCount + 1)

lemma runAttempts_all_exc (behave : FollowBehaviour) (retryCount : Nat)
    (hexc : ∀ n, ∃ e, (behave n freshLAVAJob).2 = .exc e) :
    ∀ k n, (runAttempts behave retryCount n k).jobsConstructed = k ∧
      (runAttempts behave retryCount n k).records.length = k ∧
      (runAttempts behave retryCount n k).outcome =
        .retryExhausted retryCount := by
  intro k
  induction k with
  | zero => intro n; exact ⟨rfl, rfl, rfl⟩
  | succ m ih =>
    intro n
    obtain ⟨e, he⟩ := hexc n
    have hstep : (attemptStep behave n).2.1 = .exc e := by
      simp [attemptStep, he]
    obtain ⟨ih1, ih2, ih3⟩ := ih (n + 1)
    simp [runAttempts, hstep, ih1, ih2, ih3]

/-- A behaviour in which every attempt times out while the job is still
nominally running, as in the all-attempts-time-out scenario. -/
def allTimeoutBehaviour : FollowBehaviour :=
  fun _ j => ({ j with status := "running" }, .exc (.timeout 300))

/-- C2 counterexample: with 2 configured retries and every attempt timing
out, 3 fresh jobs are constructed (the attempt count is 3) but the raised
`MesaCIRetryError` carries `retry_count = 2`, not the attempt count. -/
theorem retriable_follow_job_retry_count_cex :
    (retriable_follow_job allTimeoutBehaviour 2).jobsConstructed = 3 ∧
    (retriable_follow_job allTimeoutBehaviour 2).outcome =
      OrchResult.retryExhausted 2 ∧
    OrchResult.retryExhausted 2 ≠ OrchResult.retryExhausted 3 := by
  refine ⟨rfl, rfl, by decide⟩

/-- C2 (amended): with N configured retries and every attempt raising a
Mesa CI exception, exactly N+1 fresh jobs are constructed, exactly N+1
attempts are recorded, and the raised `MesaCIRetryError` carries the
configured retry count N. -/
theorem retriable_follow_job_retry_bound (behave : FollowBehaviour)
    (retryCount : Nat)
    (hexc : ∀ n, ∃ e, (behave n freshLAVAJob).2 = .exc e) :
    (retriable_follow_job behave retryCount).jobsConstructed =
      retryCount + 1 ∧
    (retriable_follow_job behave retryCount).records.length =
      retryCount + 1 ∧
    (retriable_follow_job behave retryCount).outcome =
      .retryExhausted retryCount :=
  runAttempts_all_exc behave retryCount hexc (retryCount + 1) 1

/-- Witness for C2 with 1 configured retry and timing-out attempts. -/
theorem retriable_follow_job_retry_bound_witness :
    (retriable_follow_job allTimeoutBehaviour 1).jobsConstructed = 2 ∧
    (retriable_follow_job allTimeoutBehaviour 1).records.length = 2 ∧
    (retriable_follow_job allTimeoutBehaviour 1).outcome =
      .retryExhausted 1 :=
  retriable_follow_job_retry_bound allTimeoutBehaviour 1
    (fun _ => ⟨.timeout 300, rfl⟩)

/-- A behaviour in which every attempt raises the known-issue exception
without touching the fresh job's state. -/
def knownIssueBehaviour : FollowBehaviour :=
  fun _ j => (j, .exc .knownIssue)

/-- C3 counterexample: an attempt that ends in the known-issue exception
(a retryable exception) does not cancel the remote job — the handler only
sets the status to `canceled`; so `cancelCalled` is `false` for the
attempt, refuting that the remote job is canceled on every retryable
exception. -/
theorem retry_known_issue_no_cancel_cex :
    (retriable_follow_job knownIssueBehaviour 0).records =
      [⟨1, false, "canceled"⟩] ∧
    (retriable_follow_job knownIssueBehaviour 0).records.map
      AttemptRecord.cancelCalled = [false] := by
  refine ⟨rfl, rfl⟩

/-- C3 (amended): an attempt ending in a retryable Mesa CI exception is
handled, a final status summary is printed, and the loop proceeds to the
next attempt; the remote job is canceled exactly when the exception is
not the known-issue one; a known-issue exception instead forces the
status to `canceled` without canceling the remote job, and any other Mesa
CI exception leaves a still-`running` status forced to `hung` by the
final status printer. -/
theorem retry_attempt_exception_step (behave : FollowBehaviour)
    (retryCount n k : Nat) (e : MesaCIExc)
    (he : (behave n freshLAVAJob).2 = .exc e) :
    (attemptStep behave n).2.2.attempt_no = n ∧
    (e = MesaCIExc.knownIssue →
      (attemptStep behave n).2.2.cancelCalled = false ∧
      (attemptStep behave n).2.2.printedStatus = "canceled") ∧
    (e ≠ MesaCIExc.knownIssue →
      (attemptStep behave n).2.2.cancelCalled = true ∧
      (attemptStep behave n).2.2.printedStatus =
        (if (behave n freshLAVAJob).1.status = "running" then "hung"
          else (behave n freshLAVAJob).1.status)) ∧
    runAttempts behave retryCount n (k + 1) =
      ⟨(attemptStep behave n).2.2 ::
          (runAttempts behave retryCount (n + 1) k).records,
        (runAttempts behave retryCount (n + 1) k).jobsConstructed + 1,
        (runAttempts behave retryCount (n + 1) k).outcome⟩ := by
  have hstep : (attemptStep behave n).2.1 = .exc e := by
    simp [attemptStep, he]
  refine ⟨?_, ?_, ?_, ?_⟩
  · simp [attemptStep]
  · rintro rfl
    simp [attemptStep, he, print_job_final_status]
  · intro hne
    cases e with
    | knownIssue => exact absurd rfl hne
    | timeout d =>
      simp only [attemptStep, he, print_job_final_status]
      refine ⟨trivial, ?_⟩
      split <;> rfl
    | parse =>
      simp only [attemptStep, he, print_job_final_status]
      refine ⟨trivial, ?_⟩
      split <;> rfl
    | generic =>
      simp only [attemptStep, he, print_job_final_status]
      refine ⟨trivial, ?_⟩
      split <;> rfl
  · simp [runAttempts, hstep]

/-- A behaviour in which every attempt raises a generic Mesa CI exception
while the job status is still `running`. -/
def hangBehaviour : FollowBehaviour :=
  fun _ j => ({ j with status := "running" }, .exc .generic)

/-- Witness for C3: a generic exception with the job still `running`
leads to a cancel call and a printed status forced to `hung`. -/
theorem retry_attempt_exception_step_witness :
    (attemptStep hangBehaviour 1).2.2.cancelCalled = true ∧
    (attemptStep hangBehaviour 1).2.2.printedStatus = "hung" := by
  have h := retry_attempt_exception_step hangBehaviour 0 1 0 .generic rfl
  obtain ⟨-, -, h3, -⟩ := h
  have hc := h3 (by decide)
  exact ⟨hc.1, by simpa using hc.2⟩

/-- One `metadata` mapping of an entry of the structured LAVA job
results, with the three keys `find_exception_from_metadata` inspects;
`none` models an absent key.  The Python key `case` is spelled `caseKey`
because `case` is reserved in Lean. -/
structure ResultMetadata where
  result : Option String
  error_type : Option String
  caseKey : Option String
deriving DecidableEq, Repr

/-- The Mesa CI exceptions `find_exception_from_metadata` can raise; all
three are `MesaCIException`s and thus retryable at the attempt level. -/
inductive LavaErrorExc where
  | infrastructureError
  | jobError
  | validationError
deriving DecidableEq, Repr

/-- `find_exception_from_metadata`: with no `result` key or a `result`
other than `fail`, return `None`; otherwise raise on `error_type`
`Infrastructure` or `Job`, then raise on `case == "validate"`, and
finally return the metadata itself. -/
def find_exception_from_metadata (md : ResultMetadata) :
    Except LavaErrorExc (Option ResultMetadata) :=
  if md.result ≠ some "fail" then .ok none
  else if md.error_type = some "Infrastructure" then
    .error .infrastructureError
  else if md.error_type = some "Job" then .error .jobError
  else if md.caseKey = some "validate" then .error .validationError
  else .ok (some md)

/-- `find_lava_error`: run `find_exception_from_metadata` over the
metadata of every result entry (a raised exception propagates); if the
loop completes, set the job status to plain `fail`. -/
def find_lava_error (job : LAVAJob) (results : List ResultMetadata) :
    Except LavaErrorExc LAVAJob :=
  match results with
  | [] => .ok { job with status := "fail" }
  | md :: rest =>
    match find_exception_from_metadata md with
    | .error e => .error e
    | .ok _ => find_lava_error job rest

/-- The retryable-classification condition of the spec: result `fail`
together with `error_type` `Infrastructure` or `Job`, or a failing
`validate` case. -/
def metadataRaises (md : ResultMetadata) : Bool :=
  md.result = some "fail" &&
    (md.error_type = some "Infrastructure" || md.error_type = some "Job" ||
      md.caseKey = some "validate")

/-- Whether a `find_lava_error` run raised a (retryable) Mesa CI
exception. -/
def isLavaError (r : Except LavaErrorExc LAVAJob) : Bool :=
  match r with
  | .error _ => true
  | .ok _ => false

lemma find_exception_raises_iff (md : ResultMetadata) :
    (∃ e, find_exception_from_metadata md = .error e) ↔
      metadataRaises md = true := by
  simp only [find_exception_from_metadata, metadataRaises]
  constructor
  · rintro ⟨e, he⟩
    by_cases h1 : md.result = some "fail"
    · by_cases h2 : md.error_type = some "Infrastructure"
      · simp [h1, h2]
      · by_cases h3 : md.error_type = some "Job"
        · simp [h1, h3]
        · by_cases h4 : md.caseKey = some "validate"
          · simp [h1, h4]
          · simp [h1, h2, h3, h4] at he
    · simp [h1] at he
  · intro h
    by_cases h1 : md.result = some "fail"
    · by_cases h2 : md.error_type = some "Infrastructure"
      · exact ⟨.infrastructureError, by simp [h1, h2]⟩
      · by_cases h3 : md.error_type = some "Job"
        · exact ⟨.jobError, by simp [h1, h2, h3]⟩
        · by_cases h4 : md.caseKey = some "validate"
          · exact ⟨.validationError, by simp [h1, h2, h3, h4]⟩
          · simp [h1, h2, h3, h4] at h
    · simp [h1] at h

/-- C4: if some result entry meets the retryable condition (result
`fail` with `error_type` `Infrastructure` or `Job`, or a failing
`validate` case) then `find_lava_error` raises a retryable Mesa CI
exception; if no entry meets it, the job status is set to plain `fail`;
and at the level of one entry, `find_exception_from_metadata` raises
exactly under that condition. -/
theorem find_lava_error_classification (job : LAVAJob)
    (results : List ResultMetadata) :
    ((∃ md ∈ results, metadataRaises md = true) →
      isLavaError (find_lava_error job results) = true) ∧
    ((∀ md ∈ results, metadataRaises md = false) →
      find_lava_error job results = .ok { job with status := "fail" }) ∧
    (∀ md : ResultMetadata,
      (∃ e, find_exception_from_metadata md = .error e) ↔
        metadataRaises md = true) := by
  refine ⟨?_, ?_, fun md => find_exception_raises_iff md⟩
  · rintro ⟨md, hmem, hmd⟩
    induction results with
    | nil => cases hmem
    | cons m rest ih =>
      rcases List.mem_cons.mp hmem with h | h
      · subst h
        obtain ⟨e, he⟩ := (find_exception_raises_iff md).mpr hmd
        simp [find_lava_error, he, isLavaError]
      · cases hfe : find_exception_from_metadata m with
        | error e => simp [find_lava_error, hfe, isLavaError]
        | ok v => simpa [find_lava_error, hfe] using ih h
  · intro h
    induction results with
    | nil => rfl
    | cons m rest ih =>
      have hm : metadataRaises m = false := h m (by simp)
      cases hfe : find_exception_from_metadata m with
      | error e =>
        have : metadataRaises m = true :=
          (find_exception_raises_iff m).mp ⟨e, hfe⟩
        rw [hm] at this
        cases this
      | ok v =>
        have := ih (fun q hq => h q (by simp [hq]))
        simpa [find_lava_error, hfe] using this

/-- Witness for C4: an infrastructure-failure entry is classified
retryable; a sentinel-free ending whose entries carry no retryable
signature sets the status to `fail`. -/
theorem find_lava_error_classification_witness :
    (isLavaError (find_lava_error freshLAVAJob
        [⟨some "fail", some "Infrastructure", none⟩]) = true) ∧
    (find_lava_error freshLAVAJob [⟨some "pass", none, none⟩] =
      .ok { freshLAVAJob with status := "fail" }) :=
  ⟨(find_lava_error_classification freshLAVAJob
        [⟨some "fail", some "Infrastructure", none⟩]).1
      ⟨⟨some "fail", some "Infrastructure", none⟩, by simp, by decide⟩,
    (find_lava_error_classification freshLAVAJob
        [⟨some "pass", none, none⟩]).2.1
      (by intro md hmd; simp at hmd; subst hmd; decide)⟩

/-- Result of one internal `LAVAJob.get_logs` call inside the parse-retry
loop of `fetch_logs`: either the payload is corrupted and
`MesaCIParseException` is raised, or it decodes to the finished flag and
the new log lines. -/
inductive GetLogsResult where
  | parseErr
  | ok (finished : Bool) (lines : List String)
deriving DecidableEq, Repr

/-- Oracle for the successive internal `get_logs` calls of one
`fetch_logs` iteration, indexed by how many calls were already made. -/
def GetLogsOracle : Type := Nat → GetLogsResult

/-- The `for _ in range(5)` parse-retry loop of `fetch_logs`, with the
remaining tries and the number of calls already made: a
`MesaCIParseException` is suppressed and the fetch retried; the first
well-formed payload breaks out of the loop; five corrupted payloads leave
the loop without a result. Returns the decoded payload (if any) and the
total number of `get_logs` calls. -/
def getLogsRetry (oracle : GetLogsOracle) :
    Nat → Nat → Option (Bool × List String) × Nat
  | 0, calls => (none, calls)
  | tries + 1, calls =>
    match oracle calls with
    | .parseErr => getLogsRetry oracle tries (calls + 1)
    | .ok finished lines => (some (finished, lines), calls + 1)

/-- The errors a `fetch_logs` iteration can raise: the device-hang
timeout (carrying the idle threshold) or the surfaced
`MesaCIParseException` after the parse-retry budget is spent. -/
inductive FetchError where
  | timeout (duration : Int)
  | parse
deriving DecidableEq, Repr

/-- Trace of one `fetch_logs` iteration: the raised error or the job
after `get_logs` (finished flag and log offset updated) with the fetched
lines, plus the number of `get_logs` calls that were made. -/
structure FetchOutcome where
  result : Except FetchError (LAVAJob × List String)
  fetchCalls : Nat
deriving Repr

/-- One iteration of `fetch_logs(job, max_idle_time, log_follower)` up to
the log fetch: raise `MesaCITimeoutError(timeout_duration=max_idle_time)`
when `now - job.last_log_time > max_idle_time`, before any fetch; else
sleep (not modelled) and run the parse-retry loop, surfacing
`MesaCIParseException` when it exhausts its 5 tries.  `lastLogTime`
stands for `job.last_log_time`, which the heartbeat always sets before
the polling loop runs.  The downstream feeding of the fetched lines into
the log follower and the verdict parser is modelled by `LogFollower` and
`parse_job_result_from_log` separately. -/
def fetch_logs (job : LAVAJob) (lastLogTime maxIdleTime now : Int)
    (oracle : GetLogsOracle) : FetchOutcome :=
  if now - lastLogTime > maxIdleTime then
    ⟨.error (.timeout maxIdleTime), 0⟩
  else
    match getLogsRetry oracle 5 0 with
    | (none, calls) => ⟨.error .parse, calls⟩
    | (some (finished, lines), calls) =>
      ⟨.ok ({ job with
            is_finished := finished,
            last_log_line := job.last_log_line + lines.length }, lines),
        calls⟩

/-- Whether a `fetch_logs` iteration raised the device-hang timeout. -/
def isTimeoutError (f : FetchOutcome) : Bool :=
  match f.result with
  | .error (.timeout _) => true
  | _ => false

/-- C5: silence strictly beyond the idle threshold raises the timeout
error carrying the threshold, with zero `get_logs` calls made; silence
one second under the threshold never raises the timeout error on this
iteration. -/
theorem fetch_logs_hang_boundary (job : LAVAJob)
    (lastLogTime maxIdleTime now : Int) (oracle : GetLogsOracle) :
    (now - lastLogTime > maxIdleTime →
      fetch_logs job lastLogTime maxIdleTime now oracle =
        ⟨.error (.timeout maxIdleTime), 0⟩) ∧
    (now - lastLogTime = maxIdleTime - 1 →
      isTimeoutError (fetch_logs job lastLogTime maxIdleTime now oracle) =
        false) := by
  constructor
  · intro h
    simp [fetch_logs, h]
  · intro h
    have hle : ¬ now - lastLogTime > maxIdleTime := by omega
    simp only [fetch_logs, hle, if_false]
    cases hg : getLogsRetry oracle 5 0 with
    | mk fst calls =>
      cases fst with
      | none => simp [isTimeoutError]
      | some p => simp [isTimeoutError]

/-- An oracle whose silence is shorter than the idle threshold and whose
first payload is well-formed and final. -/
def goodOracle : GetLogsOracle := fun _ => .ok true ["done"]

/-- Witness for C5: threshold 300 s; silence of 301 s raises the timeout
carrying 300 before any fetch; silence of 299 s raises no timeout. -/
theorem fetch_logs_hang_boundary_witness :
    (fetch_logs freshLAVAJob 0 300 301 goodOracle =
      ⟨.error (.timeout 300), 0⟩) ∧
    (isTimeoutError (fetch_logs freshLAVAJob 0 300 299 goodOracle) =
      false) :=
  ⟨(fetch_logs_hang_boundary freshLAVAJob 0 300 301 goodOracle).1
      (by decide),
    (fetch_logs_hang_boundary freshLAVAJob 0 300 299 goodOracle).2
      (by decide)⟩

lemma getLogsRetry_all_parse (oracle : GetLogsOracle) :
    ∀ tries start, (∀ k, k < tries → oracle (start + k) = .parseErr) →
      getLogsRetry oracle tries start = (none, start + tries) := by
  intro tries
  induction tries with
  | zero => intro start _; simp [getLogsRetry]
  | succ t ih =>
    intro start h
    have h0 : oracle start = .parseErr := by
      have := h 0 (Nat.succ_pos t)
      simpa using this
    have hrec := ih (start + 1) (fun k hk => by
      have := h (k + 1) (Nat.succ_lt_succ hk)
      simpa [Nat.add_assoc, Nat.add_comm 1 k] using this)
    simp only [getLogsRetry, h0, hrec, Prod.mk.injEq]
    exact ⟨trivial, by omega⟩

lemma getLogsRetry_success (oracle : GetLogsOracle)
    (finished : Bool) (lines : List String) :
    ∀ j tries start, j < tries →
      (∀ k, k < j → oracle (start + k) = .parseErr) →
      oracle (start + j) = .ok finished lines →
      getLogsRetry oracle tries start =
        (some (finished, lines), start + j + 1) := by
  intro j
  induction j with
  | zero =>
    intro tries start htries _ hok
    cases tries with
    | zero => omega
    | succ t =>
      simp only [Nat.add_zero] at hok
      simp [getLogsRetry, hok]
  | succ m ih =>
    intro tries start htries hpar hok
    cases tries with
    | zero => omega
    | succ t =>
      have h0 : oracle start = .parseErr := by
        have := hpar 0 (Nat.succ_pos m)
        simpa using this
      have hrec := ih t (start + 1) (Nat.lt_of_succ_lt_succ htries)
        (fun k hk => by
          have := hpar (k + 1) (Nat.succ_lt_succ hk)
          simpa [Nat.add_assoc, Nat.add_comm 1 k] using this)
        (by simpa [Nat.add_assoc, Nat.add_comm 1 m] using hok)
      simp only [getLogsRetry, h0, hrec, Prod.mk.injEq]
      exact ⟨trivial, by omega⟩

/-- A behaviour in which every attempt aborts with the surfaced
`MesaCIParseException`. -/
def parseFailBehaviour : FollowBehaviour :=
  fun _ j => (j, .exc .parse)

/-- C6: within the non-timed-out branch of a `fetch_logs` iteration, a
corrupted payload is retried internally: five consecutive corrupted
payloads exhaust the budget and surface the parse error after exactly 5
`get_logs` calls (a longer corrupted sequence never reaches its later
well-formed payload); a well-formed payload at position `j < 5` after
only corrupted ones lets the iteration succeed with `j + 1` calls; and
attempts that keep aborting with the surfaced parse error end in the
retry-exhaustion error. -/
theorem fetch_logs_parse_retry (job : LAVAJob)
    (lastLogTime maxIdleTime now : Int) (oracle : GetLogsOracle)
    (hidle : ¬ now - lastLogTime > maxIdleTime) :
    ((∀ k, k < 5 → oracle k = .parseErr) →
      fetch_logs job lastLogTime maxIdleTime now oracle =
        ⟨.error .parse, 5⟩) ∧
    (∀ j finished lines, j < 5 →
      (∀ k, k < j → oracle k = .parseErr) →
      oracle j = .ok finished lines →
      fetch_logs job lastLogTime maxIdleTime now oracle =
        ⟨.ok ({ job with
              is_finished := finished,
              last_log_line := job.last_log_line + lines.length }, lines),
          j + 1⟩) ∧
    (∀ (behave : FollowBehaviour) (retryCount : Nat),
      (∀ n, (behave n freshLAVAJob).2 = .exc .parse) →
      (retriable_follow_job behave retryCount).outcome =
        .retryExhausted retryCount) := by
  refine ⟨?_, ?_, ?_⟩
  · intro hall
    have hg := getLogsRetry_all_parse oracle 5 0 (fun k hk => by
      simpa using hall k hk)
    simp [fetch_logs, hidle, hg]
  · intro j finished lines hj hpar hok
    have hg := getLogsRetry_success oracle finished lines j 5 0 hj
      (fun k hk => by simpa using hpar k hk) (by simpa using hok)
    simp [fetch_logs, hidle, hg]
  · intro behave retryCount hall
    exact (runAttempts_all_exc behave retryCount
      (fun n => ⟨.parse, hall n⟩) (retryCount + 1) 1).2.2

/-- An oracle that yields corrupted payloads forever. -/
def corruptOracle : GetLogsOracle := fun _ => .parseErr

/-- An oracle whose first two payloads are corrupted and whose third is
well-formed and final. -/
def goodAfterTwoOracle : GetLogsOracle :=
  fun k => if k < 2 then .parseErr else .ok true ["hwci: mesa: pass"]

/-- Witness for C6: all-corrupted payloads surface the parse error after
5 calls; a good third payload succeeds after 3 calls; attempts that keep
surfacing the parse error exhaust the 2 configured retries. -/
theorem fetch_logs_parse_retry_witness :
    (fetch_logs freshLAVAJob 0 300 100 corruptOracle =
      ⟨.error .parse, 5⟩) ∧
    (fetch_logs freshLAVAJob 0 300 100 goodAfterTwoOracle =
      ⟨.ok ({ freshLAVAJob with
            is_finished := true, last_log_line := 1 },
          ["hwci: mesa: pass"]), 3⟩) ∧
    (retriable_follow_job parseFailBehaviour 2).outcome =
      .retryExhausted 2 := by
  refine ⟨?_, ?_, ?_⟩
  · exact (fetch_logs_parse_retry freshLAVAJob 0 300 100 corruptOracle
      (by decide)).1 (fun k _ => rfl)
  · have h := (fetch_logs_parse_retry freshLAVAJob 0 300 100
      goodAfterTwoOracle (by decide)).2.1 2 true ["hwci: mesa: pass"]
      (by decide) (fun k hk => by
        simp only [goodAfterTwoOracle, if_pos hk]) (by decide)
    simpa using h
  · exact (fetch_logs_parse_retry freshLAVAJob 0 300 100 corruptOracle
      (by decide)).2.2 parseFailBehaviour 2 (fun n => rfl)

/-- Result of one underlying RPC invocation `fn(*args)` inside
`_call_proxy`, as its handlers distinguish them: a returned value, an
`xmlrpc.client.ProtocolError`, or an `xmlrpc.client.Fault`. -/
inductive RPCResult (α : Type) where
  | ok (v : α)
  | protocolError
  | fault
deriving DecidableEq, Repr

/-- Terminal outcome of `_call_proxy`: the returned value, or one of the
two `fatal_err` exits (which call `sys.exit(1)` and terminate the whole
process). -/
inductive CallOutcome (α : Type) where
  | ok (v : α)
  | fatalProtocolError
  | fatalFault
deriving DecidableEq, Repr

/-- Trace of one `_call_proxy` run: the outcome, how many times the
identical call was issued, and the total seconds slept between
attempts. -/
structure CallTrace (α : Type) where
  outcome : CallOutcome α
  calls : Nat
  sleptSeconds : Nat
deriving DecidableEq, Repr

/-- The `for n in range(1, retries + 1)` loop of `_call_proxy`, unrolled
over the remaining iterations, carrying the attempt counter and the
seconds slept so far: a returned value ends the loop; a protocol error on
the last allowed attempt is fatal, and otherwise sleeps 15 seconds and
retries the identical call; a fault is fatal immediately.  The oracle
gives the result of the n-th invocation of `fn(*args)`. -/
def callProxyLoop (oracle : Nat → RPCResult α) :
    Nat → Nat → Nat → CallTrace α
  | 0, calls, slept => ⟨.fatalProtocolError, calls, slept⟩
  | remaining + 1, calls, slept =>
    match oracle (calls + 1) with
    | .ok v => ⟨.ok v, calls + 1, slept⟩
    | .fault => ⟨.fatalFault, calls + 1, slept⟩
    | .protocolError =>
      if remaining = 0 then ⟨.fatalProtocolError, calls + 1, slept⟩
      else callProxyLoop oracle remaining (calls + 1) (slept + 15)

/-- The retry bound of `_call_proxy`: `retries = 60`. -/
def CALL_PROXY_RETRIES : Nat := 60

/-- `_call_proxy(fn, *args)`: run the retry loop with the fixed bound of
60 attempts. -/
def call_proxy (oracle : Nat → RPCResult α) : CallTrace α :=
  callProxyLoop oracle CALL_PROXY_RETRIES 0 0

lemma callProxyLoop_all_protocol (oracle : Nat → RPCResult α) :
    ∀ remaining calls slept, 0 < remaining →
      (∀ n, calls < n → n ≤ calls + remaining → oracle n = .protocolError) →
      callProxyLoop oracle remaining calls slept =
        ⟨.fatalProtocolError, calls + remaining,
          slept + 15 * (remaining - 1)⟩ := by
  intro remaining
  induction remaining with
  | zero => intro calls slept h; omega
  | succ r ih =>
    intro calls slept _ hall
    have h1 : oracle (calls + 1) = .protocolError :=
      hall (calls + 1) (Nat.lt_succ_self calls) (by omega)
    by_cases hr0 : r = 0
    · subst hr0
      simp [callProxyLoop, h1]
    · have hrec := ih (calls + 1) (slept + 15) (Nat.pos_of_ne_zero hr0)
        (fun n hn1 hn2 => hall n (by omega) (by omega))
      have hc : calls + 1 + r = calls + (r + 1) := by omega
      have hs : slept + 15 + 15 * (r - 1) = slept + 15 * (r + 1 - 1) := by
        omega
      simp only [callProxyLoop, h1]
      rw [if_neg hr0, hrec, hc, hs]

/-- C7: a run of `_call_proxy` whose 60 allowed attempts all hit a
transport protocol error makes exactly 60 identical calls, sleeping 15
seconds between consecutive attempts (59 sleeps), and ends in the fatal
process-terminating error; a fault on the first invocation is fatal
immediately, with a single call and no sleep and no retry; a first
invocation that returns ends the wrapper with that value after a single
call. -/
theorem call_proxy_retry_policy (α : Type) (oracle : Nat → RPCResult α)
    (v : α) :
    ((∀ n, 1 ≤ n → n ≤ 60 → oracle n = .protocolError) →
      call_proxy oracle = ⟨.fatalProtocolError, 60, 15 * 59⟩) ∧
    (oracle 1 = .fault → call_proxy oracle = ⟨.fatalFault, 1, 0⟩) ∧
    (oracle 1 = .ok v → call_proxy oracle = ⟨.ok v, 1, 0⟩) := by
  refine ⟨?_, ?_, ?_⟩
  · intro hall
    have h := callProxyLoop_all_protocol oracle 60 0 0 (by omega)
      (fun n hn1 hn2 => hall n (by omega) (by omega))
    simpa [call_proxy, CALL_PROXY_RETRIES] using h
  · intro h1
    simp [call_proxy, CALL_PROXY_RETRIES, callProxyLoop, h1]
  · intro h1
    simp [call_proxy, CALL_PROXY_RETRIES, callProxyLoop, h1]

/-- An RPC oracle that always reports a transport protocol error. -/
def alwaysProtocolError : Nat → RPCResult Nat := fun _ => .protocolError

/-- An RPC oracle that reports a remote-side fault at once. -/
def immediateFault : Nat → RPCResult Nat := fun _ => .fault

/-- An RPC oracle that returns 7 at once. -/
def immediateOk : Nat → RPCResult Nat := fun _ => .ok 7

/-- Witness for C7 at the three concrete oracles. -/
theorem call_proxy_retry_policy_witness :
    call_proxy alwaysProtocolError = ⟨.fatalProtocolError, 60, 15 * 59⟩ ∧
    call_proxy immediateFault = ⟨.fatalFault, 1, 0⟩ ∧
    call_proxy immediateOk = ⟨.ok 7, 1, 0⟩ :=
  ⟨(call_proxy_retry_policy Nat alwaysProtocolError 7).1
      (fun _ _ _ => rfl),
    (call_proxy_retry_policy Nat immediateFault 7).2.1 rfl,
    (call_proxy_retry_policy Nat immediateOk 7).2.2 rfl⟩

/-- The execution phases of `LogSectionType` (`lava/utils/lava_log.py`,
with the extra `UNKNOWN` member of `lava/utils/log_section.py`). -/
inductive LogSectionType where
  | UNKNOWN
  | LAVA_BOOT
  | TEST_SUITE
  | TEST_CASE
  | LAVA_POST_PROCESSING
deriving DecidableEq, Repr

/-- The Gitlab log-folding escape prefix `"\x1b[0K"` used by
`GitlabSection`. -/
def gitlabSectionEscape : String := "\x1b[0K"

/-- One `GitlabSection` (`lava/utils/lava_log.py`): identifier, display
header, phase kind, collapsed-at-start flag, colour, and the private
start/end times (absent until `start()`/`end()` run).  Times are unix
second counts, as `get_timestamp` renders them. -/
structure GitlabSection where
  id : String
  header : String
  type : LogSectionType
  start_collapsed : Bool
  colour : String
  startTime : Option Int
  endTime : Option Int
deriving DecidableEq, Repr

/-- `GitlabSection.section`: render a `section_start`/`section_end`
marker line for the host CI log folding, bit-exact with the source
format:
`<escape>section_<marker>:<timestamp>:<id>[collapsed=true]?\r<escape><coloured header>`. -/
def sectionMarkerLine (s : GitlabSection) (marker : String)
    (header : String) (time : Int) : String :=
  let preamble := gitlabSectionEscape ++ "section_" ++ marker
  let collapsed :=
    if marker = "start" && s.start_collapsed then "[collapsed=true]" else ""
  let sectionId := s.id ++ collapsed
  let beforeHeader :=
    preamble ++ ":" ++ toString time ++ ":" ++ sectionId
  let coloredHeader :=
    if header ≠ "" then s.colour ++ header ++ "\x1b[0m" else ""
  beforeHeader ++ "\r" ++ gitlabSectionEscape ++ coloredHeader

/-- `GitlabSection.start()`: record the start time and return the
`section_start` marker line. -/
def sectionStart (s : GitlabSection) (now : Int) : GitlabSection × String :=
  ({ s with startTime := some now }, sectionMarkerLine s "start" s.header now)

/-- `GitlabSection.end()`: record the end time and return the
`section_end` marker line (empty header). -/
def sectionEnd (s : GitlabSection) (now : Int) : GitlabSection × String :=
  ({ s with endTime := some now }, sectionMarkerLine s "end" "" now)

/-- The `LogFollower` state the section tracking mutates: the currently
open section (if any) and the buffer of lines to flush. -/
structure LogFollower where
  current_section : Option GitlabSection
  buffer : List String
deriving DecidableEq, Repr

/-- `LogFollower.clear_current_section`: if a section is open and has not
finished, append its `section_end` marker to the buffer and drop it. -/
def clear_current_section (lf : LogFollower) (now : Int) : LogFollower :=
  match lf.current_section with
  | none => lf
  | some cs =>
    if cs.endTime = none then
      { current_section := none,
        buffer := lf.buffer ++ [(sectionEnd cs now).2] }
    else lf

/-- `LogFollower.update_section`: a new section whose identifier equals
the open section's identifier is a no-op (redundant regex triggers from
interleaved log channels); otherwise close the open section, make the new
section current and append its `section_start` marker to the buffer. -/
def update_section (lf : LogFollower) (now : Int) (new : GitlabSection) :
    LogFollower :=
  match lf.current_section with
  | some cs =>
    if cs.id = new.id then lf
    else
      let lf1 := clear_current_section lf now
      let p := sectionStart new now
      { current_section := some p.1, buffer := lf1.buffer ++ [p.2] }
  | none =>
    let lf1 := clear_current_section lf now
    let p := sectionStart new now
    { current_section := some p.1, buffer := lf1.buffer ++ [p.2] }

/-- C8: handing `update_section` a second section with the identifier of
the already open section is a no-op — the follower state is unchanged, so
the open section (with its start time) stays as it was and no marker is
appended to the buffer. -/
theorem update_section_idempotent (lf : LogFollower) (now : Int)
    (new : GitlabSection) (cs : GitlabSection)
    (hopen : lf.current_section = some cs) (hid : cs.id = new.id) :
    update_section lf now new = lf ∧
    (update_section lf now new).current_section = some cs ∧
    (update_section lf now new).buffer = lf.buffer := by
  have h : update_section lf now new = lf := by
    simp [update_section, hopen, hid]
  exact ⟨h, by rw [h, hopen], by rw [h]⟩

/-- A concrete open test-case section for the C8 witness. -/
def openSection : GitlabSection :=
  { id := "dEQP-GLES2"
    header := "test_case dEQP-GLES2"
    type := LogSectionType.TEST_CASE
    start_collapsed := false
    colour := ""
    startTime := some 100
    endTime := none }

/-- Witness for C8: re-announcing the open section leaves the follower,
its open section and its buffer unchanged. -/
theorem update_section_idempotent_witness :
    update_section ⟨some openSection, ["x"]⟩ 200 openSection =
      ⟨some openSection, ["x"]⟩ ∧
    (update_section ⟨some openSection, ["x"]⟩ 200
        openSection).current_section = some openSection ∧
    (update_section ⟨some openSection, ["x"]⟩ 200 openSection).buffer =
      ["x"] :=
  update_section_idempotent ⟨some openSection, ["x"]⟩ 200 openSection
    openSection rfl rfl

/-- One decoded LAVA log line as the known-issue heuristics see it: the
severity/channel tag `lvl` and the message payload `msg`. -/
structure LogLine where
  lvl : String
  msg : String
deriving DecidableEq, Repr

/-- Python's `\s` class over the ASCII range: the whitespace characters
space, tab, newline, carriage return, vertical tab and form feed. -/
def isPySpace (c : Char) : Bool :=
  c = ' ' || c = '\t' || c = '\n' || c = '\r' || c = '\x0b' || c = '\x0c'

/-- Match `\S+` followed by the literal `lit`: at least one non-space
character, then (after any further non-space characters) the literal.
This captures exactly the strings the greedy-with-backtracking regex
fragment accepts. -/
def nonSpaceRunThen (lit : List Char) : List Char → Bool
  | [] => false
  | c :: cs => !isPySpace c && (lit.isPrefixOf cs || nonSpaceRunThen lit cs)

/-- Try a position-anchored pattern at every position of the text, as
`re.search` does; true when some position matches. -/
def searchAnywhere (p : List Char → Bool) : List Char → Bool
  | [] => p []
  | c :: cs => p (c :: cs) || searchAnywhere p cs

/-- The pattern `r8152 \S+ eth0: Tx status -71` anchored at one
position. -/
def txStatusAt (cs : List Char) : Bool :=
  (litList "r8152 ").isPrefixOf cs &&
    nonSpaceRunThen (litList " eth0: Tx status -71") (cs.drop 6)

/-- `re.search(r"r8152 \S+ eth0: Tx status -71", msg)` as a Boolean. -/
def hasTxStatusIssue (msg : String) : Bool :=
  searchAnywhere txStatusAt msg.data

/-- Match `\d{1,3}` followed by a continuation: one, two or three digits,
then the rest of the pattern (the union over the backtracking choices of
the bounded repetition). -/
def digits13Then (next : List Char → Bool) : List Char → Bool
  | [] => false
  | c1 :: r1 =>
    c1.isDigit && (next r1 ||
      match r1 with
      | [] => false
      | c2 :: r2 =>
        c2.isDigit && (next r2 ||
          match r2 with
          | [] => false
          | c3 :: r3 => c3.isDigit && next r3))

/-- Match a literal dot followed by a continuation. -/
def dotThen (next : List Char → Bool) : List Char → Bool
  | '.' :: r => next r
  | _ => false

/-- The pattern
`nfs: server \d{1,3}\.\d{1,3}\.\d{1,3}\.\d{1,3} not responding, still trying`
anchored at one position. -/
def nfsAt (cs : List Char) : Bool :=
  (litList "nfs: server ").isPrefixOf cs &&
    digits13Then (dotThen (digits13Then (dotThen (digits13Then (dotThen
        (digits13Then (fun r =>
          (litList " not responding, still trying").isPrefixOf r)))))))
      (cs.drop 12)

/-- `re.search` of the NFS server-not-responding pattern as a Boolean. -/
def hasNfsNotResponding (msg : String) : Bool :=
  searchAnywhere nfsAt msg.data

example :
    hasTxStatusIssue "[ 1452.323] r8152 2-1.3:1.0 eth0: Tx status -71" =
      true := by decide

example : hasTxStatusIssue "r8152  eth0: Tx status -71" = false := by decide

example :
    hasNfsNotResponding
      "nfs: server 192.168.201.1 not responding, still trying" = true := by
  decide

example :
    hasNfsNotResponding "nfs: server host not responding, still trying" =
      false := by decide

/-- `LAVALogHints.detect_r8152_issue` (`lava/utils/lava_log_hints.py`):
on a `target`-channel line during the test-case phase, a transmit-error
match bumps the consecutive counter; otherwise, once the counter has
reached the configured threshold
(`KNOWN_ISSUE_R8152_MAX_CONSECUTIVE_COUNTER`, passed here as
`threshold`), an NFS server-not-responding match raises
`MesaCIKnownIssueException`; every other line resets the counter to
zero.  The mutated counter is the returned value. -/
def detect_r8152_issue (phase : LogSectionType) (threshold : Nat)
    (counter : Nat) (line : LogLine) : Except MesaCIExc Nat :=
  if phase = LogSectionType.TEST_CASE ∧ line.lvl = "target" then
    if hasTxStatusIssue line.msg then .ok (counter + 1)
    else if threshold ≤ counter ∧ hasNfsNotResponding line.msg then
      .error .knownIssue
    else .ok 0
  else .ok 0

/-- `LAVALogHints.detect_failure`: run `detect_r8152_issue` over each new
line in order, threading the consecutive counter; a raised known-issue
exception propagates. -/
def detect_failure (phase : LogSectionType) (threshold : Nat) :
    Nat → List LogLine → Except MesaCIExc Nat
  | counter, [] => .ok counter
  | counter, l :: ls =>
    match detect_r8152_issue phase threshold counter l with
    | .error e => .error e
    | .ok c => detect_failure phase threshold c ls

/-- Whether a line continues the r8152 pattern (either the transmit-error
signature, or the NFS complaint once the counter is at the threshold) on
the `target` channel in the test-case phase; any line that does not is
reset to a zero counter. -/
def r8152ContinuesPattern (phase : LogSectionType) (threshold : Nat)
    (counter : Nat) (line : LogLine) : Bool :=
    (phase = LogSectionType.TEST_CASE && line.lvl = "target") &&
      (hasTxStatusIssue line.msg ||
        (threshold ≤ counter && hasNfsNotResponding line.msg))

lemma detect_failure_append (phase : LogSectionType) (threshold : Nat)
    (xs ys : List LogLine) :
    ∀ counter, detect_failure phase threshold counter (xs ++ ys) =
      match detect_failure phase threshold counter xs with
      | .error e => .error e
      | .ok c => detect_failure phase threshold c ys := by
  induction xs with
  | nil => intro counter; simp [detect_failure]
  | cons x rest ih =>
    intro counter
    simp only [List.cons_append, detect_failure]
    cases detect_r8152_issue phase threshold counter x with
    | error e => rfl
    | ok c => exact ih c

lemma detect_failure_tx_run (threshold : Nat) (txLine : LogLine)
    (hlvl : txLine.lvl = "target")
    (htx : hasTxStatusIssue txLine.msg = true) :
    ∀ n counter,
      detect_failure LogSectionType.TEST_CASE threshold counter
        (List.replicate n txLine) = .ok (counter + n) := by
  intro n
  induction n with
  | zero => intro counter; simp [detect_failure]
  | succ m ih =>
    intro counter
    have hstep :
        detect_r8152_issue LogSectionType.TEST_CASE threshold counter
          txLine = .ok (counter + 1) := by
      simp [detect_r8152_issue, hlvl, htx]
    simp only [List.replicate_succ, detect_failure, hstep, ih (counter + 1)]
    congr 1
    omega

/-- C9: during the test-case phase, on the `target` channel, a
transmit-error line bumps the consecutive counter; once the counter has
reached the threshold, a following NFS server-not-responding line raises
the known-issue exception; any line that does not continue the pattern
resets the counter to zero; and a run of at least `threshold`
transmit-error lines followed by the NFS line raises the known-issue
exception from a zero counter. -/
theorem detect_r8152_issue_policy (phase : LogSectionType)
    (threshold counter : Nat) (line : LogLine) :
    (phase = LogSectionType.TEST_CASE → line.lvl = "target" →
      hasTxStatusIssue line.msg = true →
      detect_r8152_issue phase threshold counter line =
        .ok (counter + 1)) ∧
    (phase = LogSectionType.TEST_CASE → line.lvl = "target" →
      hasTxStatusIssue line.msg = false → threshold ≤ counter →
      hasNfsNotResponding line.msg = true →
      detect_r8152_issue phase threshold counter line =
        .error .knownIssue) ∧
    (r8152ContinuesPattern phase threshold counter line = false →
      detect_r8152_issue phase threshold counter line = .ok 0) ∧
    (∀ (n : Nat) (txLine nfsLine : LogLine), txLine.lvl = "target" →
      hasTxStatusIssue txLine.msg = true → nfsLine.lvl = "target" →
      hasTxStatusIssue nfsLine.msg = false →
      hasNfsNotResponding nfsLine.msg = true → threshold ≤ n →
      detect_failure LogSectionType.TEST_CASE threshold 0
        (List.replicate n txLine ++ [nfsLine]) = .error .knownIssue) := by
  refine ⟨?_, ?_, ?_, ?_⟩
  · intro h1 h2 h3
    simp [detect_r8152_issue, h1, h2, h3]
  · intro h1 h2 h3 h4 h5
    simp [detect_r8152_issue, h1, h2, h3, h4, h5]
  · intro hpat
    by_cases h1 : phase = LogSectionType.TEST_CASE
    · by_cases h2 : line.lvl = "target"
      · by_cases h3 : hasTxStatusIssue line.msg = true
        · simp [r8152ContinuesPattern, h1, h2, h3] at hpat
        · by_cases h4 : threshold ≤ counter ∧
              hasNfsNotResponding line.msg = true
          · simp [r8152ContinuesPattern, h1, h2, h4.1, h4.2] at hpat
          · rw [Classical.not_and_iff_or_not_not] at h4
            simp only [Bool.not_eq_true] at h3
            cases h4 with
            | inl h4a => simp [detect_r8152_issue, h1, h2, h3, h4a]
            | inr h4b =>
              simp only [Bool.not_eq_true] at h4b
              simp [detect_r8152_issue, h1, h2, h3, h4b]
      · simp [detect_r8152_issue, h2]
    · simp [detect_r8152_issue, h1]
  · intro n txLine nfsLine hlvl htx hnlvl hntx hnfs hthr
    have hrun := detect_failure_tx_run threshold txLine hlvl htx n 0
    have hstep :
        detect_r8152_issue LogSectionType.TEST_CASE threshold n nfsLine =
          .error .knownIssue := by
      simp [detect_r8152_issue, hnlvl, hntx, hnfs]
      omega
    rw [detect_failure_append, hrun]
    simp [detect_failure, hstep]

/-- A concrete transmit-error log line for the C9 witness. -/
def txIssueLine : LogLine :=
  ⟨"target", "[ 1452.323] r8152 2-1.3:1.0 eth0: Tx status -71"⟩

/-- A concrete NFS server-not-responding log line for the C9 witness. -/
def nfsIssueLine : LogLine :=
  ⟨"target", "nfs: server 192.168.201.1 not responding, still trying"⟩

/-- A benign log line that resets the consecutive counter. -/
def benignLine : LogLine := ⟨"target", "deqp test 42: pass"⟩

/-- Witness for C9 with threshold 3: a transmit-error line bumps the
counter, the NFS line at counter 3 raises, a benign line resets the
counter, and three transmit-error lines followed by the NFS line raise
from a zero counter. -/
theorem detect_r8152_issue_policy_witness :
    detect_r8152_issue LogSectionType.TEST_CASE 3 0 txIssueLine =
      .ok 1 ∧
    detect_r8152_issue LogSectionType.TEST_CASE 3 3 nfsIssueLine =
      .error .knownIssue ∧
    detect_r8152_issue LogSectionType.TEST_CASE 3 2 benignLine = .ok 0 ∧
    detect_failure LogSectionType.TEST_CASE 3 0
      (List.replicate 3 txIssueLine ++ [nfsIssueLine]) =
        .error .knownIssue := by
  refine ⟨?_, ?_, ?_, ?_⟩
  · exact (detect_r8152_issue_policy LogSectionType.TEST_CASE 3 0
      txIssueLine).1 rfl rfl (by decide)
  · exact (detect_r8152_issue_policy LogSectionType.TEST_CASE 3 3
      nfsIssueLine).2.1 rfl rfl (by decide) (by decide) (by decide)
  · exact (detect_r8152_issue_policy LogSectionType.TEST_CASE 3 2
      benignLine).2.2.1 (by decide)
  · exact (detect_r8152_issue_policy LogSectionType.TEST_CASE 3 0
      benignLine).2.2.2 3 txIssueLine nfsIssueLine rfl (by decide) rfl
      (by decide) (by decide) (by decide)
